import Mathlib

/-!
Verification development for the rate-limited, cursor-paginated ingestion
pipeline in `src/main.py` (classes `RateLimiter` and `TwitterScraper`, and the
top-level `main` coroutine).

The embedding is shallow: wall-clock instants are rationals, the limiter's
mutable `self.requests` list is threaded explicitly, the remote source and the
document store are function parameters returning `Except`, and every
`await rate_limiter.wait_if_needed()` call site of the pipeline is counted in
the produced trace.
-/

namespace Sauron

/-! ## RateLimiter (src/main.py lines 20-42) -/

/-- Outcome of one `RateLimiter.wait_if_needed()` call: the new value of
`self.requests`, the total time slept inside the call (`0` when the
non-blocking path is taken or `sleep_time <= 0`), and the timestamp appended
by `self.requests.append(now)`.  The call enters at wall-clock time `now` and
returns at wall-clock time `now + sleep`. -/
structure WaitResult where
  requests : List ℚ
  sleep : ℚ
  recorded : ℚ
  deriving Repr, DecidableEq

/-- Line 31-32: `self.requests = [t for t in self.requests if now - t < self.window_size]`. -/
def pruneRequests (window_size now : ℚ) (requests : List ℚ) : List ℚ :=
  requests.filter (fun t => decide (now - t < window_size))

/-- `RateLimiter.wait_if_needed` (lines 26-42), as a function of the state
`requests` and the value `now` returned by `time.time()` at line 28.

Faithfulness notes: the guard is `len(self.requests) >= self.requests_per_window`
on the pruned list; `self.requests[0]` is the head of the pruned list (for
`requests_per_window >= 1` the guard makes it nonempty, exactly when the Python
expression is defined; `headI` supplies a default otherwise); `self.requests[1:]`
is `tail`; and crucially the appended value at line 42 is the variable `now`
read at line 28, *before* the `await asyncio.sleep(sleep_time)` at line 39. -/
def wait_if_needed (requests_per_window : ℕ) (window_size : ℚ)
    (requests : List ℚ) (now : ℚ) : WaitResult :=
  let pruned := pruneRequests window_size now requests
  if requests_per_window ≤ pruned.length then
    let sleep_time := window_size - (now - pruned.headI)
    { requests := pruned.tail ++ [now]
      sleep := if 0 < sleep_time then sleep_time else 0
      recorded := now }
  else
    { requests := pruned ++ [now], sleep := 0, recorded := now }

/-- Run a sequence of `wait_if_needed` calls; `entries` are the wall-clock
times at which the successive calls enter (the `time.time()` reads). -/
def runFrom (L : ℕ) (W : ℚ) (requests : List ℚ) : List ℚ → List WaitResult
  | [] => []
  | e :: es =>
    let r := wait_if_needed L W requests e
    r :: runFrom L W r.requests es

/-- The successive values of `self.requests` after each call of the run. -/
def statesFrom (L : ℕ) (W : ℚ) (requests : List ℚ) : List ℚ → List (List ℚ)
  | [] => []
  | e :: es =>
    let r := wait_if_needed L W requests e
    r.requests :: statesFrom L W r.requests es

/-- A sequential schedule is valid when each call enters no earlier than the
time at which the previous call returned (entry time plus time slept):
the calls come from one single-threaded event loop.  `ready` is the earliest
admissible entry time for the next call. -/
def validEntriesFrom (L : ℕ) (W : ℚ) (requests : List ℚ) (ready : ℚ) :
    List ℚ → Bool
  | [] => true
  | e :: es =>
    let r := wait_if_needed L W requests e
    decide (ready ≤ e) && validEntriesFrom L W r.requests (e + r.sleep) es

/-- Number of recorded admission timestamps lying within the trailing window
of width `W` at instant `s` (the window convention of the prune at line 32:
age strictly less than `W`, i.e. the interval `(s - W, s]`). -/
def admissionsInWindow (W s : ℚ) (history : List ℚ) : ℕ :=
  (history.filter (fun t => decide (s - W < t) && decide (t ≤ s))).length

/-! ## IngestionPipeline (src/main.py lines 44-163) and main (lines 169-193)

Type parameters: `ε` exceptions, `τ` tweet objects, `κ` cursors, `σ` resolved
user handles, `γ` category labels (`tweet_type` strings in the source), `π`
subject identifiers (`screen_name` strings in the source).  The pipeline never
inspects these values; it only threads them. -/

variable {ε τ κ σ γ π : Type}

/-- One page from `client.get_user_tweets` (line 129): the items, and the
`next_cursor` attribute when the result object has one (`none` models the
attribute being absent, the `hasattr` test at line 156). -/
structure Page (τ κ : Type) where
  items : List τ
  next_cursor : Option κ
  deriving Repr, DecidableEq

/-- The record built by `fetch_tweet_details` (the `tweet_data` dict):
its source-copied fields are kept opaque as the tweet object itself, and the
`tweet_type` key is absent until the caller sets it at line 142. -/
structure TweetData (τ γ : Type) where
  tweet : τ
  tweet_type : Option γ
  deriving Repr, DecidableEq

/-- `TwitterScraper.fetch_tweet_details` (lines 62-98): performs exactly one
limiter acquisition (line 64) and then builds the record purely from the
tweet object's attributes — it makes no source or store call.  Returns the
number of limiter acquisitions performed, paired with the record. -/
def fetch_tweet_details (t : τ) : ℕ × TweetData τ γ :=
  (1, { tweet := t, tweet_type := none })

/-- Result of the per-item loop over one page (lines 140-151). -/
structure ItemsResult (ε τ γ : Type) where
  processed : ℕ
  acquisitions : ℕ
  persisted : List (TweetData τ γ)
  err : Option ε
  deriving Repr, DecidableEq

/-- The `for tweet in tweets` body (lines 140-151): for each item in page
order, `fetch_tweet_details` (one acquisition), attach `tweet_type`, one
further acquisition (line 145), then the store upsert (line 146); on success
`tweets_fetched` is incremented and the loop moves on; a store error aborts
the remaining items of the page and surfaces as the raised exception. -/
def processPageItems (upsert : TweetData τ γ → Except ε Unit) (tweet_type : γ) :
    List τ → ItemsResult ε τ γ
  | [] => ⟨0, 0, [], none⟩
  | t :: ts =>
    let d : ℕ × TweetData τ γ := fetch_tweet_details t
    let td : TweetData τ γ := { d.2 with tweet_type := some tweet_type }
    match upsert td with
    | Except.error e => ⟨0, d.1 + 1, [], some e⟩
    | Except.ok _ =>
      let r := processPageItems upsert tweet_type ts
      ⟨r.processed + 1, d.1 + 1 + r.acquisitions, td :: r.persisted, r.err⟩

/-- One page request issued at lines 129-134: the value of `tweets_fetched`
at request time, the requested page size (the `count` argument, line 132),
and the cursor passed (line 133). -/
structure ReqRecord (κ : Type) where
  tweets_fetched : ℕ
  count : ℕ
  cursor : Option κ
  deriving Repr, DecidableEq

/-- Trace of one category's `while` loop (lines 125-159): the page requests
issued in order, the records upserted in order, the number of limiter
acquisitions performed, and the exception surfaced by the source or the
store, if any. -/
structure CatTrace (ε τ κ γ : Type) where
  reqs : List (ReqRecord κ)
  persisted : List (TweetData τ γ)
  acquisitions : ℕ
  err : Option ε
  deriving Repr, DecidableEq

/-- The `while tweets_fetched < max_tweets_per_type` loop of
`fetch_user_tweets` (lines 125-159), for one `tweet_type`.  `src` is
`client.get_user_tweets` already applied to the resolved user and the
category.  Each iteration: one limiter acquisition (line 126); request a page
of size `min(20, max_tweets_per_type - tweets_fetched)` at the current
cursor; an empty page breaks the loop; otherwise the items are processed
(lines 140-151) and `tweets_fetched` grows by the page length; then the loop
continues at the page's `next_cursor` when that attribute is present and
breaks otherwise (lines 156-159). -/
def fetch_type_loop (src : ℕ → Option κ → Except ε (Page τ κ))
    (upsert : TweetData τ γ → Except ε Unit) (tweet_type : γ)
    (max_tweets_per_type tweets_fetched : ℕ) (cursor : Option κ) :
    CatTrace ε τ κ γ :=
  if h : tweets_fetched < max_tweets_per_type then
    let cnt := min 20 (max_tweets_per_type - tweets_fetched)
    let req : ReqRecord κ := ⟨tweets_fetched, cnt, cursor⟩
    match src cnt cursor with
    | Except.error e => ⟨[req], [], 1, some e⟩
    | Except.ok page =>
      if hpage : page.items.isEmpty then
        ⟨[req], [], 1, none⟩
      else
        let pr := processPageItems upsert tweet_type page.items
        match pr.err with
        | some e => ⟨[req], pr.persisted, 1 + pr.acquisitions, some e⟩
        | none =>
          match page.next_cursor with
          | none => ⟨[req], pr.persisted, 1 + pr.acquisitions, none⟩
          | some c =>
            let rest := fetch_type_loop src upsert tweet_type max_tweets_per_type
              (tweets_fetched + page.items.length) (some c)
            ⟨req :: rest.reqs, pr.persisted ++ rest.persisted,
              1 + pr.acquisitions + rest.acquisitions, rest.err⟩
  else ⟨[], [], 0, none⟩
termination_by max_tweets_per_type - tweets_fetched
decreasing_by
  have hl : 0 < page.items.length := by
    cases hp : page.items
    · rw [hp] at hpage
      simp at hpage
    · simp
  omega

/-- The `for tweet_type in tweet_types` loop of `fetch_user_tweets`
(lines 121-159): categories are processed in order, each with fresh
`tweets_fetched = 0` and `cursor = None`; the first category whose loop
raises stops the iteration and the exception propagates. -/
def run_types (src : γ → ℕ → Option κ → Except ε (Page τ κ))
    (upsert : TweetData τ γ → Except ε Unit) (max_tweets_per_type : ℕ) :
    List γ → List (γ × CatTrace ε τ κ γ) × Option ε
  | [] => ([], none)
  | ty :: tys =>
    let tr := fetch_type_loop (src ty) upsert ty max_tweets_per_type 0 none
    match tr.err with
    | some e => ([(ty, tr)], some e)
    | none =>
      let rest := run_types src upsert max_tweets_per_type tys
      ((ty, tr) :: rest.1, rest.2)

/-- Per-subject trace of `fetch_user_tweets`: the categories attempted with
their loop traces, and the exception re-raised by the handler at lines
161-163, if any. -/
structure RunTrace (ε τ κ γ : Type) where
  cats : List (γ × CatTrace ε τ κ γ)
  err : Option ε
  deriving Repr, DecidableEq

/-- `TwitterScraper.fetch_user_tweets` (lines 100-163) for one subject.
`resolve` is `client.get_user_by_screen_name(screen_name)` (one limiter
acquisition precedes it at line 117); its failure, like any error from the
source or the store below, is caught by the `except` at line 161, logged, and
re-raised unchanged (`raise`, line 163), so it surfaces in `err` and every
remaining category is skipped. -/
def fetch_user_tweets (resolve : Except ε σ)
    (src : σ → γ → ℕ → Option κ → Except ε (Page τ κ))
    (upsert : TweetData τ γ → Except ε Unit)
    (tweet_types : List γ) (max_tweets_per_type : ℕ) : RunTrace ε τ κ γ :=
  match resolve with
  | Except.error e => ⟨[], some e⟩
  | Except.ok user =>
    let r := run_types (src user) upsert max_tweets_per_type tweet_types
    ⟨r.1, r.2⟩

/-- `main` (lines 169-193): a single `try` block wraps the whole
`for screen_name in SCREEN_NAMES` loop; the `except` clause at line 190 logs
the error without re-raising, and the loop is not resumed.  The result pairs
the subjects for which `fetch_user_tweets` was invoked with their traces,
together with the error caught by the top-level handler, if any. -/
def main_run (resolve : π → Except ε σ)
    (src : σ → γ → ℕ → Option κ → Except ε (Page τ κ))
    (upsert : TweetData τ γ → Except ε Unit)
    (tweet_types : List γ) (max_tweets_per_type : ℕ) :
    List π → List (π × RunTrace ε τ κ γ) × Option ε
  | [] => ([], none)
  | s :: ss =>
    let tr := fetch_user_tweets (resolve s) src upsert tweet_types max_tweets_per_type
    match tr.err with
    | some e => ([(s, tr)], some e)
    | none =>
      let rest := main_run resolve src upsert tweet_types max_tweets_per_type ss
      ((s, tr) :: rest.1, rest.2)

/-! ### Concrete instances used in counterexamples and witnesses -/

/-- A store that accepts every record. -/
def exUpsertOk : TweetData ℕ ℕ → Except Unit Unit := fun _ => Except.ok ()

/-- A store that accepts every record (numeric exception type). -/
def exUpsertNat : TweetData ℕ ℕ → Except ℕ Unit := fun _ => Except.ok ()

/-- A source returning one fixed non-empty page without continuation token. -/
def exSrcOnePage : ℕ → Option Unit → Except Unit (Page ℕ Unit) :=
  fun _ _ => Except.ok ⟨[7], none⟩

/-- A source that always returns a full page of the requested size together
with a continuation token. -/
def exSrcFull : ℕ → Option ℕ → Except Unit (Page ℕ ℕ) :=
  fun cnt _ => Except.ok ⟨List.replicate cnt 7, some 0⟩

/-- Subjects resolve to themselves. -/
def exResolve : ℕ → Except ℕ ℕ := fun s => Except.ok s

/-- Source for the C3/C7 scenario (playing the spec's scenario with numbers
for labels: category 1 is "Replies"): subject 0's category 1 raises error 99;
every other (subject, category) pair returns a one-item page without a
continuation token. -/
def exSrcC3 : ℕ → ℕ → ℕ → Option Unit → Except ℕ (Page ℕ Unit) :=
  fun user ty _ _ =>
    if user = 0 ∧ ty = 1 then Except.error 99 else Except.ok ⟨[7], none⟩

/-- Category list mirroring `["Tweets", "Replies", "Media", "Likes"]`. -/
def exTypes : List ℕ := [0, 1, 2, 3]

/-! ## Theorems -/

/-- C1: the spec's limiter bound fails on the code.  With `limit = 2`,
`window = 60` and three calls entering at `t = 0` — the spec's own scenario,
and a valid sequential schedule — the third call sleeps 60 seconds but then
appends the stale pre-sleep timestamp `0`, so the recorded admission history
is `[0, 0, 0]`: three admissions inside the single trailing 60-second window
at instant `0`, exceeding the limit `2`. -/
theorem C1_limiter_bound_violated :
    validEntriesFrom 2 60 [] 0 [0, 0, 0] = true ∧
    (runFrom 2 60 [] [0, 0, 0]).map WaitResult.recorded = [0, 0, 0] ∧
    (runFrom 2 60 [] [0, 0, 0]).map WaitResult.sleep = [0, 0, 60] ∧
    admissionsInWindow 60 0 ((runFrom 2 60 [] [0, 0, 0]).map WaitResult.recorded) = 3 ∧
    ¬ admissionsInWindow 60 0 ((runFrom 2 60 [] [0, 0, 0]).map WaitResult.recorded) ≤ 2 := by
  norm_num [validEntriesFrom, runFrom, wait_if_needed, pruneRequests, admissionsInWindow]

/-- C2 counterexample: the timestamp appended after a suspension is not the
wall-clock time at which the suspension ends.  With `limit = 1`, `window = 60`
and two calls entering at `t = 0` (a valid sequential schedule), the second
call sleeps 60 seconds, hence returns at wall-clock time `0 + 60 = 60`, yet
the timestamp it appends is `0`, the `time.time()` value read before the
sleep — and `0 ≠ 60`. -/
theorem C2_recorded_timestamp_not_post_sleep :
    validEntriesFrom 1 60 [] 0 [0, 0] = true ∧
    (runFrom 1 60 [] [0, 0]).map WaitResult.sleep = [0, 60] ∧
    (runFrom 1 60 [] [0, 0]).map WaitResult.recorded = [0, 0] ∧
    ¬ ((0 : ℚ) = 0 + 60) := by
  norm_num [validEntriesFrom, runFrom, wait_if_needed, pruneRequests]

/-- C2 (amended): when the pruned list has reached the limit (and the limit is
at least 1, so that `self.requests[0]` is defined), the call suspends for
`max 0 (windowSeconds - (now - oldestRecordedTimestamp))`, removes the oldest
recorded timestamp, and appends the timestamp `now` that was read at the start
of the call, before the suspension. -/
theorem C2_blocked_path_behavior (L : ℕ) (W now : ℚ) (requests : List ℚ)
    (hL : 1 ≤ L) (hfull : L ≤ (pruneRequests W now requests).length) :
    wait_if_needed L W requests now =
      { requests := (pruneRequests W now requests).tail ++ [now]
        sleep := max 0 (W - (now - (pruneRequests W now requests).headI))
        recorded := now } := by
  simp only [wait_if_needed]
  rw [if_pos hfull]
  rcases le_or_lt (W - (now - (pruneRequests W now requests).headI)) 0 with h | h
  · rw [if_neg (not_lt.mpr h), max_eq_left h]
  · rw [if_pos h, max_eq_right h.le]

/-- Witness for C2's amended theorem at `limit = 1`, `window = 60`, state
`[0]`, entry time `0`. -/
theorem C2_blocked_path_behavior_witness :
    wait_if_needed 1 60 [0] 0 =
      { requests := (pruneRequests 60 0 [0]).tail ++ [0]
        sleep := max 0 (60 - (0 - (pruneRequests 60 0 [0]).headI))
        recorded := 0 } :=
  C2_blocked_path_behavior 1 60 0 [0] (by decide) (by norm_num [pruneRequests])

/-- Projection lemma: the `requests` list produced by one call. -/
theorem wait_requests_eq (L : ℕ) (W : ℚ) (requests : List ℚ) (now : ℚ) :
    (wait_if_needed L W requests now).requests =
      if L ≤ (pruneRequests W now requests).length
      then (pruneRequests W now requests).tail ++ [now]
      else pruneRequests W now requests ++ [now] := by
  simp only [wait_if_needed]
  split <;> rfl

/-- Projection lemma: the time slept inside one call. -/
theorem wait_sleep_eq (L : ℕ) (W : ℚ) (requests : List ℚ) (now : ℚ) :
    (wait_if_needed L W requests now).sleep =
      if L ≤ (pruneRequests W now requests).length
      then (if 0 < W - (now - (pruneRequests W now requests).headI)
            then W - (now - (pruneRequests W now requests).headI) else 0)
      else 0 := by
  simp only [wait_if_needed]
  split <;> rfl

/-- The appended timestamp is always the entry-time `now` (line 42). -/
theorem wait_recorded_eq (L : ℕ) (W : ℚ) (requests : List ℚ) (now : ℚ) :
    (wait_if_needed L W requests now).recorded = now := by
  simp only [wait_if_needed]
  split <;> rfl

/-- Every timestamp in the pruned list is a timestamp of the incoming list. -/
theorem pruneRequests_subset (W now : ℚ) (requests : List ℚ) :
    pruneRequests W now requests ⊆ requests :=
  List.filter_subset' requests

/-- If every stored timestamp is at most the entry time, the same holds for
the list left behind by the call (its elements are surviving old timestamps
plus the entry time itself). -/
theorem wait_requests_le (L : ℕ) (W : ℚ) (requests : List ℚ) (now : ℚ)
    (h : ∀ t ∈ requests, t ≤ now) :
    ∀ t ∈ (wait_if_needed L W requests now).requests, t ≤ now := by
  intro t ht
  rw [wait_requests_eq] at ht
  have hsub : ∀ u ∈ pruneRequests W now requests, u ≤ now :=
    fun u hu => h u (pruneRequests_subset W now requests hu)
  split at ht <;> rcases List.mem_append.mp ht with h1 | h1
  · exact hsub t (List.tail_sublist _ |>.subset h1)
  · exact (List.mem_singleton.mp h1).le
  · exact hsub t h1
  · exact (List.mem_singleton.mp h1).le

/-- Sleep bound for a single call: when the limit is at least 1, the window is
nonnegative, and every stored timestamp is at most the entry time (which holds
for every reachable state under a monotone clock), the call sleeps for a
nonnegative duration of at most `window_size`. -/
theorem wait_sleep_bounds (L : ℕ) (W : ℚ) (requests : List ℚ) (now : ℚ)
    (hL : 1 ≤ L) (hW : 0 ≤ W) (h : ∀ t ∈ requests, t ≤ now) :
    0 ≤ (wait_if_needed L W requests now).sleep ∧
      (wait_if_needed L W requests now).sleep ≤ W := by
  rw [wait_sleep_eq]
  split
  · next hc =>
    have hne : pruneRequests W now requests ≠ [] := by
      intro hnil
      rw [hnil] at hc
      simp at hc
      omega
    have hmem : (pruneRequests W now requests).headI ∈ pruneRequests W now requests := by
      rcases hq : pruneRequests W now requests with _ | ⟨a, l⟩
      · exact absurd hq hne
      · simp
    have hle : (pruneRequests W now requests).headI ≤ now :=
      h _ (pruneRequests_subset W now requests hmem)
    constructor
    · split
      · next hpos => exact hpos.le
      · exact le_refl 0
    · split
      · linarith
      · exact hW
  · exact ⟨le_refl 0, hW⟩

/-- Sleep bound along a whole run: for a nondecreasing sequence of entry
times, starting from a state whose timestamps do not exceed the first entry
time, every call of the run sleeps between `0` and `W`. -/
theorem runFrom_sleep_bound (L : ℕ) (W : ℚ) (hL : 1 ≤ L) (hW : 0 ≤ W) :
    ∀ (entries state : List ℚ), entries.Chain' (· ≤ ·) →
      (∀ t ∈ state, ∀ e ∈ entries.head?, t ≤ e) →
      ∀ r ∈ runFrom L W state entries, 0 ≤ r.sleep ∧ r.sleep ≤ W := by
  intro entries
  induction entries with
  | nil =>
    intro state _ _ r hr
    simp [runFrom] at hr
  | cons e es ih =>
    intro state hchain hstate r hr
    have hst : ∀ t ∈ state, t ≤ e := fun t ht => hstate t ht e (by simp)
    simp only [runFrom] at hr
    rcases List.mem_cons.mp hr with rfl | hr
    · exact wait_sleep_bounds L W state e hL hW hst
    · refine ih (wait_if_needed L W state e).requests
        (List.chain'_cons'.mp hchain).2 ?_ r hr
      intro t ht e' he'
      exact (wait_requests_le L W state e hst t ht).trans
        ((List.chain'_cons'.mp hchain).1 e' he')

/-- C8: every `wait_if_needed` call terminates.  In the embedding each call is
a total function with a single suspension point, so the formal content is the
bound on that suspension: along any run with nondecreasing `time.time()` reads
(limit at least 1 — with limit 0 the code raises `IndexError` at
`self.requests[0]` instead of blocking — and a nonnegative window), every call
sleeps for a duration between `0` and `window_size` and then returns at its
entry time plus that duration; no call blocks permanently. -/
theorem C8_acquire_sleep_bounded (L : ℕ) (W : ℚ) (entries : List ℚ)
    (hL : 1 ≤ L) (hW : 0 ≤ W) (hmono : entries.Chain' (· ≤ ·)) :
    ∀ r ∈ runFrom L W [] entries, 0 ≤ r.sleep ∧ r.sleep ≤ W :=
  runFrom_sleep_bound L W hL hW entries [] hmono (by simp)

/-- Witness for C8 at limit 2, window 60, three calls entering at `t = 0`:
the third call (index 2) sleeps a duration within `[0, 60]`. -/
theorem C8_acquire_sleep_bounded_witness :
    0 ≤ ((runFrom 2 60 [] [0, 0, 0]).getD 2 ⟨[], 0, 0⟩).sleep ∧
      ((runFrom 2 60 [] [0, 0, 0]).getD 2 ⟨[], 0, 0⟩).sleep ≤ 60 :=
  C8_acquire_sleep_bounded 2 60 [0, 0, 0] (by decide) (by norm_num)
    (by norm_num [List.chain'_cons, List.chain'_singleton])
    _ (by norm_num [runFrom, wait_if_needed, pruneRequests])

/-- One call preserves sortedness of the timestamp list, provided every stored
timestamp is at most the entry time: pruning filters a sorted list, removing
the head keeps it sorted, and the appended entry time is the largest value. -/
theorem wait_sorted (L : ℕ) (W : ℚ) (requests : List ℚ) (now : ℚ)
    (hs : requests.Sorted (· ≤ ·)) (h : ∀ t ∈ requests, t ≤ now) :
    (wait_if_needed L W requests now).requests.Sorted (· ≤ ·) := by
  rw [wait_requests_eq]
  have hps : (pruneRequests W now requests).Sorted (· ≤ ·) := hs.filter _
  have hpl : ∀ u ∈ pruneRequests W now requests, u ≤ now :=
    fun u hu => h u (pruneRequests_subset W now requests hu)
  split
  · refine List.pairwise_append.mpr ⟨hps.sublist (List.tail_sublist _),
      List.pairwise_singleton _ _, ?_⟩
    intro x hx y hy
    rw [List.mem_singleton.mp hy]
    exact hpl x (List.tail_sublist _ |>.subset hx)
  · refine List.pairwise_append.mpr ⟨hps, List.pairwise_singleton _ _, ?_⟩
    intro x hx y hy
    rw [List.mem_singleton.mp hy]
    exact hpl x hx

/-- In a list sorted by `≤`, the first element is a lower bound. -/
theorem sorted_headI_le (l : List ℚ) (hs : l.Sorted (· ≤ ·)) :
    ∀ x ∈ l, l.headI ≤ x := by
  cases l with
  | nil => simp
  | cons a t =>
    intro x hx
    rcases List.mem_cons.mp hx with rfl | hx
    · exact le_refl x
    · exact (List.pairwise_cons.mp hs).1 x hx

/-- Sortedness is an invariant of every state reached along a run with
nondecreasing entry times, starting from a sorted state bounded by the first
entry time. -/
theorem statesFrom_sorted (L : ℕ) (W : ℚ) :
    ∀ (entries state : List ℚ), entries.Chain' (· ≤ ·) →
      state.Sorted (· ≤ ·) →
      (∀ t ∈ state, ∀ e ∈ entries.head?, t ≤ e) →
      ∀ s ∈ statesFrom L W state entries, s.Sorted (· ≤ ·) := by
  intro entries
  induction entries with
  | nil =>
    intro state _ _ _ s hs
    simp [statesFrom] at hs
  | cons e es ih =>
    intro state hchain hsort hstate s hs
    have hst : ∀ t ∈ state, t ≤ e := fun t ht => hstate t ht e (by simp)
    simp only [statesFrom] at hs
    rcases List.mem_cons.mp hs with rfl | hs
    · exact wait_sorted L W state e hsort hst
    · refine ih (wait_if_needed L W state e).requests
        (List.chain'_cons'.mp hchain).2 (wait_sorted L W state e hsort hst) ?_ s hs
      intro t ht e' he'
      exact (wait_requests_le L W state e hst t ht).trans
        ((List.chain'_cons'.mp hchain).1 e' he')

/-- C9: assuming the `time.time()` reads across calls are nondecreasing, every
value taken by `self.requests` along a run from the empty initial list is
sorted in nondecreasing order, and consequently its first element — the
`self.requests[0]` used by the delay computation at line 36 — is the oldest
recorded timestamp (a lower bound of the list). -/
theorem C9_requests_sorted (L : ℕ) (W : ℚ) (entries : List ℚ)
    (hmono : entries.Chain' (· ≤ ·)) :
    ∀ s ∈ statesFrom L W [] entries,
      s.Sorted (· ≤ ·) ∧ ∀ x ∈ s, s.headI ≤ x := by
  intro s hs
  have h := statesFrom_sorted L W entries [] hmono (by simp) (by simp) s hs
  exact ⟨h, sorted_headI_le s h⟩

/-- Witness for C9 at limit 2, window 60, entries `[0, 30, 30]`: the state
after the third call is sorted. -/
theorem C9_requests_sorted_witness :
    ((statesFrom 2 60 [] [0, 30, 30]).getD 2 []).Sorted (· ≤ ·) :=
  (C9_requests_sorted 2 60 [0, 30, 30]
    (by norm_num [List.chain'_cons, List.chain'_singleton]) _
    (by norm_num [statesFrom, wait_if_needed, pruneRequests])).1

/-! ### Step equations for the category loop -/

/-- Loop exit: once `tweets_fetched` has reached the budget, the `while`
condition fails and nothing further happens. -/
theorem fetch_type_loop_stop (src : ℕ → Option κ → Except ε (Page τ κ))
    (upsert : TweetData τ γ → Except ε Unit) (ty : γ)
    (max fetched : ℕ) (cursor : Option κ) (h : ¬ fetched < max) :
    fetch_type_loop src upsert ty max fetched cursor = ⟨[], [], 0, none⟩ := by
  rw [fetch_type_loop]
  rw [dif_neg h]

/-- Source failure: the request is issued (after one acquisition) and the
raised error ends the loop. -/
theorem fetch_type_loop_src_error (src : ℕ → Option κ → Except ε (Page τ κ))
    (upsert : TweetData τ γ → Except ε Unit) (ty : γ)
    (max fetched : ℕ) (cursor : Option κ) (e : ε) (h : fetched < max)
    (heq : src (min 20 (max - fetched)) cursor = Except.error e) :
    fetch_type_loop src upsert ty max fetched cursor =
      ⟨[⟨fetched, min 20 (max - fetched), cursor⟩], [], 1, some e⟩ := by
  rw [fetch_type_loop]
  rw [dif_pos h]
  simp only [heq]

/-- Empty page: the loop breaks at line 137 without persisting anything and
without error. -/
theorem fetch_type_loop_empty_page (src : ℕ → Option κ → Except ε (Page τ κ))
    (upsert : TweetData τ γ → Except ε Unit) (ty : γ)
    (max fetched : ℕ) (cursor : Option κ) (page : Page τ κ) (h : fetched < max)
    (heq : src (min 20 (max - fetched)) cursor = Except.ok page)
    (hpage : page.items.isEmpty) :
    fetch_type_loop src upsert ty max fetched cursor =
      ⟨[⟨fetched, min 20 (max - fetched), cursor⟩], [], 1, none⟩ := by
  rw [fetch_type_loop]
  rw [dif_pos h]
  simp only [heq]
  rw [dif_pos hpage]

/-- Store failure inside the page: the items upserted before the failure are
kept, and the raised error ends the loop. -/
theorem fetch_type_loop_store_error (src : ℕ → Option κ → Except ε (Page τ κ))
    (upsert : TweetData τ γ → Except ε Unit) (ty : γ)
    (max fetched : ℕ) (cursor : Option κ) (page : Page τ κ) (e : ε)
    (h : fetched < max)
    (heq : src (min 20 (max - fetched)) cursor = Except.ok page)
    (hpage : ¬ page.items.isEmpty = true)
    (herr : (processPageItems upsert ty page.items).err = some e) :
    fetch_type_loop src upsert ty max fetched cursor =
      ⟨[⟨fetched, min 20 (max - fetched), cursor⟩],
        (processPageItems upsert ty page.items).persisted,
        1 + (processPageItems upsert ty page.items).acquisitions, some e⟩ := by
  rw [fetch_type_loop]
  rw [dif_pos h]
  simp only [heq]
  rw [dif_neg hpage]
  simp only [herr]

/-- Missing continuation token: after the page's items are processed, the
loop breaks at line 159 without issuing a further request. -/
theorem fetch_type_loop_no_cursor (src : ℕ → Option κ → Except ε (Page τ κ))
    (upsert : TweetData τ γ → Except ε Unit) (ty : γ)
    (max fetched : ℕ) (cursor : Option κ) (page : Page τ κ)
    (h : fetched < max)
    (heq : src (min 20 (max - fetched)) cursor = Except.ok page)
    (hpage : ¬ page.items.isEmpty = true)
    (herr : (processPageItems upsert ty page.items).err = none)
    (hnc : page.next_cursor = none) :
    fetch_type_loop src upsert ty max fetched cursor =
      ⟨[⟨fetched, min 20 (max - fetched), cursor⟩],
        (processPageItems upsert ty page.items).persisted,
        1 + (processPageItems upsert ty page.items).acquisitions, none⟩ := by
  rw [fetch_type_loop]
  rw [dif_pos h]
  simp only [heq]
  rw [dif_neg hpage]
  simp only [herr, hnc]

/-- Continuation: with a non-empty page, no error, and a continuation token,
the loop advances `tweets_fetched` by the page length and continues from the
new cursor. -/
theorem fetch_type_loop_continue (src : ℕ → Option κ → Except ε (Page τ κ))
    (upsert : TweetData τ γ → Except ε Unit) (ty : γ)
    (max fetched : ℕ) (cursor : Option κ) (page : Page τ κ) (c : κ)
    (h : fetched < max)
    (heq : src (min 20 (max - fetched)) cursor = Except.ok page)
    (hpage : ¬ page.items.isEmpty = true)
    (herr : (processPageItems upsert ty page.items).err = none)
    (hnc : page.next_cursor = some c) :
    fetch_type_loop src upsert ty max fetched cursor =
      ⟨⟨fetched, min 20 (max - fetched), cursor⟩ ::
          (fetch_type_loop src upsert ty max (fetched + page.items.length) (some c)).reqs,
        (processPageItems upsert ty page.items).persisted ++
          (fetch_type_loop src upsert ty max (fetched + page.items.length) (some c)).persisted,
        1 + (processPageItems upsert ty page.items).acquisitions +
          (fetch_type_loop src upsert ty max (fetched + page.items.length) (some c)).acquisitions,
        (fetch_type_loop src upsert ty max (fetched + page.items.length) (some c)).err⟩ := by
  rw [fetch_type_loop]
  rw [dif_pos h]
  simp only [heq]
  rw [dif_neg hpage]
  simp only [herr, hnc]

/-! ### Per-page item processing -/

/-- When every upsert succeeds, a page of items is processed in full: each of
the `n` items contributes exactly two limiter acquisitions (one inside
`fetch_tweet_details`, one immediately before the upsert), each item is
persisted with the category attached, and `tweets_fetched` grows by `n`. -/
theorem processPageItems_ok (upsert : TweetData τ γ → Except ε Unit) (ty : γ)
    (hup : ∀ td, upsert td = Except.ok ()) :
    ∀ items : List τ,
      processPageItems upsert ty items =
        ⟨items.length, 2 * items.length,
          items.map (fun t => ⟨t, some ty⟩), none⟩ := by
  intro items
  induction items with
  | nil => rfl
  | cons t ts ih =>
    simp only [processPageItems, fetch_tweet_details, hup, ih, List.length_cons,
      List.map_cons, ItemsResult.mk.injEq, true_and, and_true]
    omega

/-- In an error-free processing of a page, the acquisition count is exactly
twice the number of persisted items, and every item of the page was
persisted. -/
theorem processPageItems_err_none (upsert : TweetData τ γ → Except ε Unit) (ty : γ) :
    ∀ items : List τ,
      (processPageItems upsert ty items).err = none →
      (processPageItems upsert ty items).acquisitions = 2 * items.length ∧
      (processPageItems upsert ty items).persisted.length = items.length := by
  intro items
  induction items with
  | nil => intro _; exact ⟨rfl, rfl⟩
  | cons t ts ih =>
    intro h
    rcases hu : upsert ⟨t, some ty⟩ with e | u
    · exfalso
      simp only [processPageItems, fetch_tweet_details, hu] at h
      exact Option.some_ne_none e h
    · simp only [processPageItems, fetch_tweet_details, hu] at h ⊢
      obtain ⟨h1, h2⟩ := ih h
      refine ⟨?_, ?_⟩
      · rw [h1]
        simp only [List.length_cons]
        omega
      · simp only [List.length_cons, h2]

/-! ### Claims C4, C5, C6 about the category loop -/

/-- C4: in any category-loop iteration (the `while` condition holds) where
the source returns a non-empty page whose continuation attribute is absent,
and the store accepts every record, the loop terminates after persisting
exactly that page's items (with the category attached, in page order), with
no error and without requesting any further page: the trace holds that one
request only. -/
theorem C4_missing_cursor_terminates (src : ℕ → Option κ → Except ε (Page τ κ))
    (upsert : TweetData τ γ → Except ε Unit) (ty : γ)
    (max fetched : ℕ) (cursor : Option κ) (page : Page τ κ)
    (hlt : fetched < max)
    (hsrc : src (min 20 (max - fetched)) cursor = Except.ok page)
    (hne : page.items ≠ [])
    (hnc : page.next_cursor = none)
    (hup : ∀ td, upsert td = Except.ok ()) :
    (fetch_type_loop src upsert ty max fetched cursor).reqs =
        [⟨fetched, min 20 (max - fetched), cursor⟩] ∧
    (fetch_type_loop src upsert ty max fetched cursor).persisted =
        page.items.map (fun t => ⟨t, some ty⟩) ∧
    (fetch_type_loop src upsert ty max fetched cursor).err = none := by
  have hpage : ¬ page.items.isEmpty = true := by
    cases hp : page.items
    · exact absurd hp hne
    · simp
  have hpp := processPageItems_ok upsert ty hup page.items
  rw [fetch_type_loop_no_cursor src upsert ty max fetched cursor page hlt hsrc hpage
      (by rw [hpp]) hnc]
  rw [hpp]
  exact ⟨rfl, rfl, rfl⟩

/-- Witness for C4: budget 5, a source answering with the single-item page
`[7]` and no token; the loop issues exactly one request, upserts the one
record, and stops cleanly. -/
theorem C4_missing_cursor_terminates_witness :
    (fetch_type_loop exSrcOnePage exUpsertOk 0 5 0 none).reqs =
        [⟨0, min 20 (5 - 0), none⟩] ∧
    (fetch_type_loop exSrcOnePage exUpsertOk 0 5 0 none).persisted =
        ([7] : List ℕ).map (fun t => ⟨t, some 0⟩) ∧
    (fetch_type_loop exSrcOnePage exUpsertOk 0 5 0 none).err = none :=
  C4_missing_cursor_terminates exSrcOnePage exUpsertOk 0 5 0 none ⟨[7], none⟩
    (by decide) rfl (by decide) rfl (fun _ => rfl)

/-- Against a source that always returns a full page of the requested size
plus a continuation token, and a store that accepts everything, the loop run
starting at any `tweets_fetched` issues `⌈(max - fetched) / 20⌉` requests,
persists `max - fetched` items, and ends without error. -/
theorem fetch_type_loop_full_run (src : ℕ → Option κ → Except ε (Page τ κ))
    (upsert : TweetData τ γ → Except ε Unit) (ty : γ) (max : ℕ)
    (hfull : ∀ cnt cur, ∃ its c,
      src cnt cur = Except.ok ⟨its, some c⟩ ∧ its.length = cnt)
    (hup : ∀ td, upsert td = Except.ok ()) :
    ∀ (n fetched : ℕ) (cursor : Option κ), max - fetched = n →
      (fetch_type_loop src upsert ty max fetched cursor).reqs.length =
          (max - fetched + 19) / 20 ∧
      (fetch_type_loop src upsert ty max fetched cursor).persisted.length =
          max - fetched ∧
      (fetch_type_loop src upsert ty max fetched cursor).err = none := by
  intro n
  induction n using Nat.strong_induction_on with
  | _ n ih =>
    intro fetched cursor hn
    by_cases hlt : fetched < max
    · obtain ⟨its, c, heq, hlen⟩ := hfull (min 20 (max - fetched)) cursor
      have hmin1 : 1 ≤ min 20 (max - fetched) := by omega
      have hne : ¬ (⟨its, some c⟩ : Page τ κ).items.isEmpty = true := by
        cases hp : its
        · rw [hp] at hlen
          simp at hlen
          omega
        · simp [hp]
      have hpp := processPageItems_ok upsert ty hup its
      rw [fetch_type_loop_continue src upsert ty max fetched cursor ⟨its, some c⟩ c
          hlt heq hne (by rw [hpp]) rfl]
      obtain ⟨h1, h2, h3⟩ := ih (max - (fetched + its.length)) (by omega)
        (fetched + its.length) (some c) rfl
      refine ⟨?_, ?_, h3⟩
      · simp only [List.length_cons, h1]
        omega
      · simp only [hpp, List.length_append, List.length_map, h2]
        omega
    · rw [fetch_type_loop_stop src upsert ty max fetched cursor hlt]
      have h0 : max - fetched = 0 := by omega
      rw [h0]
      exact ⟨rfl, rfl, rfl⟩

/-- C5: for every positive budget, against a source that on every request
returns a page with exactly the requested number of items together with a
continuation token (and a store that accepts every record), the category loop
issues exactly `⌈budget / 20⌉ = (budget + 19) / 20` page requests, persists
exactly `budget` items, and terminates without error. -/
theorem C5_full_source_page_count (src : ℕ → Option κ → Except ε (Page τ κ))
    (upsert : TweetData τ γ → Except ε Unit) (ty : γ) (max : ℕ)
    (hfull : ∀ cnt cur, ∃ its c,
      src cnt cur = Except.ok ⟨its, some c⟩ ∧ its.length = cnt)
    (hup : ∀ td, upsert td = Except.ok ())
    (hpos : 0 < max) :
    (fetch_type_loop src upsert ty max 0 none).reqs.length = (max + 19) / 20 ∧
    (fetch_type_loop src upsert ty max 0 none).persisted.length = max ∧
    (fetch_type_loop src upsert ty max 0 none).err = none := by
  have h := fetch_type_loop_full_run src upsert ty max hfull hup (max - 0) 0 none rfl
  simpa using h

/-- Witness for C5 at budget 45 against the full-page source: exactly
`(45 + 19) / 20 = 3` pages and 45 items. -/
theorem C5_full_source_page_count_witness :
    (fetch_type_loop exSrcFull exUpsertOk 0 45 0 none).reqs.length = (45 + 19) / 20 ∧
    (fetch_type_loop exSrcFull exUpsertOk 0 45 0 none).persisted.length = 45 ∧
    (fetch_type_loop exSrcFull exUpsertOk 0 45 0 none).err = none :=
  C5_full_source_page_count exSrcFull exUpsertOk 0 45
    (fun cnt cur => ⟨List.replicate cnt 7, 0, rfl, by simp⟩)
    (fun _ => rfl) (by decide)

/-- Every request recorded in a category-loop trace carries the loop counter
at its request time and asks for `min 20 (max - counter)` items, and is only
issued while the counter is below the budget. -/
theorem fetch_type_loop_count_min (src : ℕ → Option κ → Except ε (Page τ κ))
    (upsert : TweetData τ γ → Except ε Unit) (ty : γ) (max : ℕ) :
    ∀ (n fetched : ℕ) (cursor : Option κ), max - fetched = n →
      ∀ r ∈ (fetch_type_loop src upsert ty max fetched cursor).reqs,
        r.count = min 20 (max - r.tweets_fetched) ∧ r.tweets_fetched < max := by
  intro n
  induction n using Nat.strong_induction_on with
  | _ n ih =>
    intro fetched cursor hn r hr
    by_cases hlt : fetched < max
    · rcases hsrc : src (min 20 (max - fetched)) cursor with e | page
      · rw [fetch_type_loop_src_error src upsert ty max fetched cursor e hlt hsrc] at hr
        simp at hr
        subst hr
        exact ⟨rfl, hlt⟩
      · by_cases hpage : page.items.isEmpty
        · rw [fetch_type_loop_empty_page src upsert ty max fetched cursor page
              hlt hsrc hpage] at hr
          simp at hr
          subst hr
          exact ⟨rfl, hlt⟩
        · rcases herr : (processPageItems upsert ty page.items).err with _ | e
          · rcases hnc : page.next_cursor with _ | c
            · rw [fetch_type_loop_no_cursor src upsert ty max fetched cursor page
                  hlt hsrc hpage herr hnc] at hr
              simp at hr
              subst hr
              exact ⟨rfl, hlt⟩
            · rw [fetch_type_loop_continue src upsert ty max fetched cursor page c
                  hlt hsrc hpage herr hnc] at hr
              have hlen : 0 < page.items.length := by
                cases hp : page.items
                · rw [hp] at hpage
                  simp at hpage
                · simp
              rcases List.mem_cons.mp hr with rfl | hr
              · exact ⟨rfl, hlt⟩
              · exact ih (max - (fetched + page.items.length)) (by omega)
                  (fetched + page.items.length) (some c) rfl r hr
          · rw [fetch_type_loop_store_error src upsert ty max fetched cursor page e
                hlt hsrc hpage herr] at hr
            simp at hr
            subst hr
            exact ⟨rfl, hlt⟩
    · rw [fetch_type_loop_stop src upsert ty max fetched cursor hlt] at hr
      simp at hr

/-- C6: every page request issued by the category loop asks for exactly
`min 20 (perCategoryBudget - itemsFetchedCount)` items, where
`itemsFetchedCount` is the loop counter recorded at request time (and
requests are issued only while the counter is below the budget); in
particular, with budget 5 against a full-page source exactly one page is
requested, with page-size parameter `min 20 (5 - 0) = 5`. -/
theorem C6_page_size_request :
    (∀ (ε τ κ γ : Type) (src : ℕ → Option κ → Except ε (Page τ κ))
        (upsert : TweetData τ γ → Except ε Unit) (ty : γ) (max fetched : ℕ)
        (cursor : Option κ),
      ∀ r ∈ (fetch_type_loop src upsert ty max fetched cursor).reqs,
        r.count = min 20 (max - r.tweets_fetched) ∧ r.tweets_fetched < max) ∧
    (fetch_type_loop exSrcFull exUpsertOk 0 5 0 none).reqs = [⟨0, 5, none⟩] := by
  constructor
  · intro ε τ κ γ src upsert ty max fetched cursor r hr
    exact fetch_type_loop_count_min src upsert ty max (max - fetched) fetched
      cursor rfl r hr
  · have hpp := processPageItems_ok exUpsertOk 0 (fun _ => rfl) (List.replicate 5 7)
    have h5 : min 20 (5 - 0) = 5 := by decide
    rw [fetch_type_loop_continue exSrcFull exUpsertOk 0 5 0 none
        ⟨List.replicate 5 7, some 0⟩ 0 (by decide) (by rw [h5]; rfl) (by simp)
        (by rw [hpp]) rfl]
    rw [fetch_type_loop_stop exSrcFull exUpsertOk 0 5
        (0 + (List.replicate 5 7).length) (some 0) (by simp)]
    rw [h5]

/-- Witness for C6: the single request of the budget-5 trace asks for
`min 20 (5 - 0) = 5` items. -/
theorem C6_page_size_request_witness :
    (⟨0, 5, none⟩ : ReqRecord ℕ).count =
        min 20 (5 - (⟨0, 5, none⟩ : ReqRecord ℕ).tweets_fetched) ∧
    (⟨0, 5, none⟩ : ReqRecord ℕ).tweets_fetched < 5 :=
  C6_page_size_request.1 Unit ℕ ℕ ℕ exSrcFull exUpsertOk 0 5 0 none ⟨0, 5, none⟩
    (by rw [C6_page_size_request.2]
        exact List.mem_singleton.mpr rfl)

/-! ### Claim C7: subject-scoped failure propagation -/

/-- Within one subject, the category iteration runs the error-free prefix,
stops at the first category whose loop raises, and returns that error. -/
theorem run_types_abort (src : γ → ℕ → Option κ → Except ε (Page τ κ))
    (upsert : TweetData τ γ → Except ε Unit) (max : ℕ) :
    ∀ (pre : List γ) (ty : γ) (post : List γ) (e : ε),
      (∀ t ∈ pre, (fetch_type_loop (src t) upsert t max 0 none).err = none) →
      (fetch_type_loop (src ty) upsert ty max 0 none).err = some e →
      (run_types src upsert max (pre ++ ty :: post)).1.map Prod.fst = pre ++ [ty] ∧
      (run_types src upsert max (pre ++ ty :: post)).2 = some e := by
  intro pre
  induction pre with
  | nil =>
    intro ty post e _ hfail
    refine ⟨?_, ?_⟩ <;> simp [run_types, hfail]
  | cons a pre ih =>
    intro ty post e hpre hfail
    have ha : (fetch_type_loop (src a) upsert a max 0 none).err = none :=
      hpre a (List.mem_cons_self a pre)
    obtain ⟨h1, h2⟩ := ih ty post e (fun t ht => hpre t (List.mem_cons_of_mem a ht)) hfail
    simp only [List.cons_append, run_types, ha]
    exact ⟨by simp only [List.map_cons, List.append_eq, h1, List.cons_append], h2⟩

/-- C7: every error surfaced by the source or the store while
`fetch_user_tweets` processes a subject aborts the subject's entire run and
is re-raised to the caller unchanged.  First conjunct: a failure of the
subject-resolution source call `get_user_by_screen_name` (line 118) aborts
before any category — the attempted-category list is empty — and the error
is re-raised.  Second conjunct: if the subject resolves, every category
before `ty` runs without error, and category `ty`'s loop surfaces an error
`e` from the source or the store, then the categories attempted are exactly
the clean prefix plus the failing one — every category after `ty` is
skipped — and the error is re-raised. -/
theorem C7_subject_abort_propagates :
    (∀ (ε τ κ σ γ : Type) (resolve : Except ε σ)
        (src : σ → γ → ℕ → Option κ → Except ε (Page τ κ))
        (upsert : TweetData τ γ → Except ε Unit)
        (tweet_types : List γ) (max : ℕ) (e : ε),
      resolve = Except.error e →
      (fetch_user_tweets resolve src upsert tweet_types max).cats = [] ∧
      (fetch_user_tweets resolve src upsert tweet_types max).err = some e) ∧
    (∀ (ε τ κ σ γ : Type) (resolve : Except ε σ)
        (src : σ → γ → ℕ → Option κ → Except ε (Page τ κ))
        (upsert : TweetData τ γ → Except ε Unit) (max : ℕ) (user : σ)
        (pre : List γ) (ty : γ) (post : List γ) (e : ε),
      resolve = Except.ok user →
      (∀ t ∈ pre, (fetch_type_loop (src user t) upsert t max 0 none).err = none) →
      (fetch_type_loop (src user ty) upsert ty max 0 none).err = some e →
      (fetch_user_tweets resolve src upsert (pre ++ ty :: post) max).cats.map Prod.fst =
          pre ++ [ty] ∧
      (fetch_user_tweets resolve src upsert (pre ++ ty :: post) max).err = some e) := by
  constructor
  · intro ε τ κ σ γ resolve src upsert tweet_types max e hres
    rw [hres]
    exact ⟨rfl, rfl⟩
  · intro ε τ κ σ γ resolve src upsert max user pre ty post e hres hpre hfail
    obtain ⟨h1, h2⟩ := run_types_abort (src user) upsert max pre ty post e hpre hfail
    rw [hres]
    simp only [fetch_user_tweets]
    exact ⟨h1, h2⟩

/-- The C3/C7 example source serves any (subject, category) pair other than
(0, 1) with the one-item page `[7]` and no token: one request, one record,
three acquisitions, no error. -/
theorem exSrcC3_ok_run (u ty : ℕ)
    (heq : exSrcC3 u ty (min 20 (5 - 0)) none = Except.ok ⟨[7], none⟩) :
    fetch_type_loop (exSrcC3 u ty) exUpsertNat ty 5 0 none =
      ⟨[⟨0, min 20 (5 - 0), none⟩], [⟨7, some ty⟩], 3, none⟩ := by
  have hpp := processPageItems_ok exUpsertNat ty (fun _ => rfl) [7]
  rw [fetch_type_loop_no_cursor (exSrcC3 u ty) exUpsertNat ty 5 0 none ⟨[7], none⟩
      (by decide) heq (by decide) (by rw [hpp]) rfl]
  rw [hpp]
  rfl

/-- Witness for C7, exercising both conjuncts on the example source.
Resolution failure with error 42: no category attempted, error re-raised.
Category failure for subject 0 with categories `[0] ++ 1 :: [2, 3]`:
category 0 runs clean, category 1 raises error 99, and the run ends with
exactly `[0, 1]` attempted and the error re-raised. -/
theorem C7_subject_abort_propagates_witness :
    ((fetch_user_tweets (Except.error 42) exSrcC3 exUpsertNat exTypes 5).cats = [] ∧
     (fetch_user_tweets (Except.error 42) exSrcC3 exUpsertNat exTypes 5).err = some 42) ∧
    ((fetch_user_tweets (Except.ok 0) exSrcC3 exUpsertNat ([0] ++ 1 :: [2, 3]) 5).cats.map
        Prod.fst = [0] ++ [1] ∧
     (fetch_user_tweets (Except.ok 0) exSrcC3 exUpsertNat ([0] ++ 1 :: [2, 3]) 5).err =
        some 99) :=
  ⟨C7_subject_abort_propagates.1 ℕ ℕ Unit ℕ ℕ (Except.error 42) exSrcC3 exUpsertNat
      exTypes 5 42 rfl,
   C7_subject_abort_propagates.2 ℕ ℕ Unit ℕ ℕ (Except.ok 0) exSrcC3 exUpsertNat 5 0
      [0] 1 [2, 3] 99 rfl
      (by intro t ht
          simp only [List.mem_singleton] at ht
          subst ht
          rw [exSrcC3_ok_run 0 0 rfl])
      (by rw [fetch_type_loop_src_error (exSrcC3 0 1) exUpsertNat 1 5 0 none 99
            (by decide) rfl])⟩

/-! ### Claim C10: limiter acquisitions per item and per page -/

/-- In every error-free category-loop trace the acquisition count is exactly
one per page request plus two per persisted item. -/
theorem fetch_type_loop_acq (src : ℕ → Option κ → Except ε (Page τ κ))
    (upsert : TweetData τ γ → Except ε Unit) (ty : γ) (max : ℕ) :
    ∀ (n fetched : ℕ) (cursor : Option κ), max - fetched = n →
      (fetch_type_loop src upsert ty max fetched cursor).err = none →
      (fetch_type_loop src upsert ty max fetched cursor).acquisitions =
        (fetch_type_loop src upsert ty max fetched cursor).reqs.length +
          2 * (fetch_type_loop src upsert ty max fetched cursor).persisted.length := by
  intro n
  induction n using Nat.strong_induction_on with
  | _ n ih =>
    intro fetched cursor hn herr
    by_cases hlt : fetched < max
    · rcases hsrc : src (min 20 (max - fetched)) cursor with e | page
      · rw [fetch_type_loop_src_error src upsert ty max fetched cursor e hlt hsrc] at herr
        exact absurd herr (by simp)
      · by_cases hpage : page.items.isEmpty
        · rw [fetch_type_loop_empty_page src upsert ty max fetched cursor page
              hlt hsrc hpage]
          rfl
        · rcases hperr : (processPageItems upsert ty page.items).err with _ | e
          · obtain ⟨hpa, hpl⟩ := processPageItems_err_none upsert ty page.items hperr
            rcases hnc : page.next_cursor with _ | c
            · rw [fetch_type_loop_no_cursor src upsert ty max fetched cursor page
                  hlt hsrc hpage hperr hnc]
              simp only [List.length_singleton, hpa, hpl]
            · rw [fetch_type_loop_continue src upsert ty max fetched cursor page c
                  hlt hsrc hpage hperr hnc] at herr ⊢
              have hlen : 0 < page.items.length := by
                cases hp : page.items
                · rw [hp] at hpage
                  simp at hpage
                · simp
              have herr' : (fetch_type_loop src upsert ty max
                  (fetched + page.items.length) (some c)).err = none := herr
              have hrest := ih (max - (fetched + page.items.length)) (by omega)
                (fetched + page.items.length) (some c) rfl herr'
              simp only [List.length_cons, List.length_append, hpa, hpl, hrest]
              omega
          · rw [fetch_type_loop_store_error src upsert ty max fetched cursor page e
                hlt hsrc hpage hperr] at herr
            exact absurd herr (by simp)
    · rw [fetch_type_loop_stop src upsert ty max fetched cursor hlt]
      rfl

/-- C10: `fetch_tweet_details` performs exactly one limiter acquisition even
though it makes no external call; with a store that accepts every record,
processing a page of `n` items performs exactly `2 * n` acquisitions (one
inside `fetch_tweet_details` plus one immediately before each upsert); and in
every error-free category-loop trace the total acquisition count is the
number of page fetches plus two per persisted item — `2n + 1` for each page
of `n` items. -/
theorem C10_two_acquisitions_per_item :
    (∀ (τ γ : Type) (t : τ), (@fetch_tweet_details τ γ t).1 = 1) ∧
    (∀ (ε τ γ : Type) (upsert : TweetData τ γ → Except ε Unit) (ty : γ)
        (items : List τ), (∀ td, upsert td = Except.ok ()) →
      (processPageItems upsert ty items).acquisitions = 2 * items.length) ∧
    (∀ (ε τ κ γ : Type) (src : ℕ → Option κ → Except ε (Page τ κ))
        (upsert : TweetData τ γ → Except ε Unit) (ty : γ) (max fetched : ℕ)
        (cursor : Option κ),
      (fetch_type_loop src upsert ty max fetched cursor).err = none →
      (fetch_type_loop src upsert ty max fetched cursor).acquisitions =
        (fetch_type_loop src upsert ty max fetched cursor).reqs.length +
          2 * (fetch_type_loop src upsert ty max fetched cursor).persisted.length) := by
  refine ⟨fun τ γ t => rfl, ?_, ?_⟩
  · intro ε τ γ upsert ty items hup
    rw [processPageItems_ok upsert ty hup items]
  · intro ε τ κ γ src upsert ty max fetched cursor herr
    exact fetch_type_loop_acq src upsert ty max (max - fetched) fetched cursor rfl herr

/-- Witness for C10's acquisition accounting on the one-page example trace:
one request and one persisted item, hence `1 + 2 * 1` acquisitions. -/
theorem C10_two_acquisitions_per_item_witness :
    (fetch_type_loop exSrcOnePage exUpsertOk 0 5 0 none).acquisitions =
      (fetch_type_loop exSrcOnePage exUpsertOk 0 5 0 none).reqs.length +
        2 * (fetch_type_loop exSrcOnePage exUpsertOk 0 5 0 none).persisted.length :=
  C10_two_acquisitions_per_item.2.2 Unit ℕ Unit ℕ exSrcOnePage exUpsertOk 0 5 0 none
    (by rw [fetch_type_loop_no_cursor exSrcOnePage exUpsertOk 0 5 0 none ⟨[7], none⟩
          (by decide) rfl (by decide)
          (by rw [processPageItems_ok exUpsertOk 0 (fun _ => rfl) [7]]) rfl])

/-! ### Claim C3: error containment across the subject batch -/

/-- C3 (amended): an error raised while processing one subject is *not*
caught at the subject boundary — the single `try`/`except` of `main` wraps
the whole subject loop.  The error propagates out of the per-subject loop,
the top-level handler catches and logs it (so the process does not crash and
the error is not re-raised), but every subject after the failing one is
skipped, not processed. -/
theorem C3_error_stops_batch (resolve : π → Except ε σ)
    (src : σ → γ → ℕ → Option κ → Except ε (Page τ κ))
    (upsert : TweetData τ γ → Except ε Unit) (tys : List γ) (max : ℕ) :
    ∀ (pre : List π) (a : π) (post : List π) (e : ε),
      (∀ s ∈ pre, (fetch_user_tweets (resolve s) src upsert tys max).err = none) →
      (fetch_user_tweets (resolve a) src upsert tys max).err = some e →
      (main_run resolve src upsert tys max (pre ++ a :: post)).1.map Prod.fst =
          pre ++ [a] ∧
      (main_run resolve src upsert tys max (pre ++ a :: post)).2 = some e := by
  intro pre
  induction pre with
  | nil =>
    intro a post e _ hfail
    refine ⟨?_, ?_⟩ <;> simp [main_run, hfail]
  | cons b pre ih =>
    intro a post e hpre hfail
    have hb : (fetch_user_tweets (resolve b) src upsert tys max).err = none :=
      hpre b (List.mem_cons_self b pre)
    obtain ⟨h1, h2⟩ := ih a post e (fun s hs => hpre s (List.mem_cons_of_mem b hs)) hfail
    simp only [List.cons_append, main_run, hb]
    exact ⟨by simp only [List.map_cons, List.append_eq, h1, List.cons_append], h2⟩

/-- Full run of the example's subject 0: category 0 clean, category 1 raises
error 99, categories 2 and 3 skipped, error re-raised. -/
theorem exRunSubject0 :
    fetch_user_tweets (exResolve 0) exSrcC3 exUpsertNat exTypes 5 =
      ⟨[(0, ⟨[⟨0, min 20 (5 - 0), none⟩], [⟨7, some 0⟩], 3, none⟩),
        (1, ⟨[⟨0, min 20 (5 - 0), none⟩], [], 1, some 99⟩)], some 99⟩ := by
  have h0 := exSrcC3_ok_run 0 0 rfl
  have h1 : fetch_type_loop (exSrcC3 0 1) exUpsertNat 1 5 0 none =
      ⟨[⟨0, min 20 (5 - 0), none⟩], [], 1, some 99⟩ :=
    fetch_type_loop_src_error (exSrcC3 0 1) exUpsertNat 1 5 0 none 99 (by decide) rfl
  simp only [fetch_user_tweets, exResolve, exTypes, run_types, h0, h1]

/-- Full run of the example's subject 1: all four categories clean. -/
theorem exRunSubject1 :
    fetch_user_tweets (exResolve 1) exSrcC3 exUpsertNat exTypes 5 =
      ⟨[(0, ⟨[⟨0, min 20 (5 - 0), none⟩], [⟨7, some 0⟩], 3, none⟩),
        (1, ⟨[⟨0, min 20 (5 - 0), none⟩], [⟨7, some 1⟩], 3, none⟩),
        (2, ⟨[⟨0, min 20 (5 - 0), none⟩], [⟨7, some 2⟩], 3, none⟩),
        (3, ⟨[⟨0, min 20 (5 - 0), none⟩], [⟨7, some 3⟩], 3, none⟩)], none⟩ := by
  have h0 := exSrcC3_ok_run 1 0 rfl
  have h1 := exSrcC3_ok_run 1 1 rfl
  have h2 := exSrcC3_ok_run 1 2 rfl
  have h3 := exSrcC3_ok_run 1 3 rfl
  simp only [fetch_user_tweets, exResolve, exTypes, run_types, h0, h1, h2, h3]

/-- C3 counterexample: subjects `[0, 1]` (0 playing subject A, 1 subject B),
where subject 0 fails during category 1 (playing "Replies") and subject 1
would run all four categories cleanly.  The batch stops at subject 0: only
`[0]` is attempted, the top-level handler receives error 99, subject 0's
categories 2 and 3 are skipped — and subject 1 is never processed at all,
even though its own run would have succeeded, contradicting the claim that
every subsequent subject is still processed in full. -/
theorem C3_batch_stops_at_failing_subject :
    (main_run exResolve exSrcC3 exUpsertNat exTypes 5 [0, 1]).1.map Prod.fst = [0] ∧
    (main_run exResolve exSrcC3 exUpsertNat exTypes 5 [0, 1]).2 = some 99 ∧
    (fetch_user_tweets (exResolve 0) exSrcC3 exUpsertNat exTypes 5).cats.map Prod.fst
        = [0, 1] ∧
    (1 : ℕ) ∉ (main_run exResolve exSrcC3 exUpsertNat exTypes 5 [0, 1]).1.map Prod.fst ∧
    (fetch_user_tweets (exResolve 1) exSrcC3 exUpsertNat exTypes 5).err = none := by
  refine ⟨?_, ?_, ?_, ?_, ?_⟩ <;>
    simp [main_run, exRunSubject0, exRunSubject1]

/-- Witness for C3's amended theorem: batch `[] ++ 0 :: [1]` with subject 0
failing — only `[0]` is attempted and error 99 is caught at the top level. -/
theorem C3_error_stops_batch_witness :
    (main_run exResolve exSrcC3 exUpsertNat exTypes 5 ([] ++ 0 :: [1])).1.map Prod.fst =
        [] ++ [0] ∧
    (main_run exResolve exSrcC3 exUpsertNat exTypes 5 ([] ++ 0 :: [1])).2 = some 99 :=
  C3_error_stops_batch exResolve exSrcC3 exUpsertNat exTypes 5 [] 0 [1] 99
    (by simp) (by rw [exRunSubject0])

end Sauron
